import Mathlib

/-!
Verification development for the Admin Policy Based Route node controller
(`pkg/ovn/controller/apbroute/node_controller.go`).

The controller's sync functions (`syncRoutePolicy`, `syncNamespace`,
`syncPod`), the three work-item loops and the exposed read API
`GetAdminPolicyBasedExternalRouteIPsForTargetNamespace` are embedded as
executable Lean functions.  Calls into the external policy manager
(`c.mgr.*`) and into the listers are represented either as inputs of an
explicit environment record (their results) or, where a claim speaks about
their effect on the cache, as spec-modelled state transformers.  Each sync
function additionally returns the ordered trace of manager/applier calls it
performed, so that "performs no mutation" and "path X runs" are statements
about the trace.
-/

namespace ApbRoute

/-- Result of a lister `Get` call: the object was found, it was absent
(`apierrors.IsNotFound`), or the lookup failed with some other error. -/
inductive GetResult where
  | found
  | notFound
  | otherErr (msg : String)
deriving DecidableEq, Repr

/-- Errors a sync function can return. `inProgress ns` is the
"cannot add namespace %s because it is currently being deleted" error;
`lister` is a non-NotFound lister failure; `mgrFailed op msg` wraps a
failed manager call (the `fmt.Errorf("failed to ... %s:%w", ...)` cases). -/
inductive SyncErr where
  | lister (msg : String)
  | inProgress (ns : String)
  | mgrFailed (op : String) (msg : String)
deriving DecidableEq, Repr

/-- A route policy object (`AdminPolicyBasedExternalRoute`): its unique name
plus an opaque payload standing for the rest of the spec. -/
structure Policy where
  name : String
  payload : String
deriving DecidableEq, Repr

abbrev IPSet := Finset String

/-- Identity of a pod: namespace and name (`ktypes.NamespacedName`). -/
structure PodRef where
  ns : String
  name : String
deriving DecidableEq, Repr

/-- Per-namespace cache entry (`namespaceInfo` in the manager): the set of
policy names currently matching the namespace, the tombstone flag, and the
resolved gateway contributions.  Dynamic contributions are kept per gateway
pod so that a pod's contribution can be removed on pod deletion. -/
structure NamespaceInfo where
  policies : Finset String
  markForDelete : Bool
  staticGateways : IPSet
  dynamicGateways : List (PodRef × IPSet)
deriving DecidableEq

/-- The manager's namespace cache: namespace name to its entry. -/
abbrev Cache := List (String × NamespaceInfo)

/-- Modelled from the spec: `getNamespaceInfoFromCache` — look a namespace up
in the cache (the real function also acquires the entry's lock; locking is
not modelled). -/
def getNamespaceInfoFromCache (c : Cache) (n : String) : Option NamespaceInfo :=
  (c.find? (fun e => e.1 = n)).map (fun e => e.2)

/-- Replace the entry for `n` when present, otherwise append it
(the Go map assignment `cache[ns] = info`). -/
def setNs : Cache → String → NamespaceInfo → Cache
  | [], n, i => [(n, i)]
  | e :: tl, n, i => if e.1 = n then (n, i) :: tl else e :: setNs tl n i

/-! ### Policy sync (`syncRoutePolicy`) -/

/-- Manager calls that `syncRoutePolicy` can perform, in order. -/
inductive RouteAction where
  | getRoutePolicyFromCache (name : String)
  | processDeletePolicy (name : String)
  | processAddPolicy (p : Policy)
  | processUpdatePolicy (cur new : Policy)
deriving DecidableEq, Repr

/-- Does this manager call mutate the cache? The cache lookup does not. -/
def RouteAction.mutates : RouteAction → Bool
  | .getRoutePolicyFromCache _ => false
  | _ => true

/-- Environment of a `syncRoutePolicy` call: the result of
`routeLister.Get(name)` and the results of the manager calls it may make.
`cacheLookup` is the `(currentPolicy, found, markedForDeletion)` triple
returned by `mgr.getRoutePolicyFromCache`. -/
structure RouteEnv where
  listerGet : GetResult
  cacheLookup : Policy × Bool × Bool
  deleteResult : Except String Unit
  addResult : Except String Unit
  updateResult : Except String Unit

/-- `syncRoutePolicy` (node_controller.go:292-328): on NotFound run the
delete path; otherwise look the policy up in the manager cache; skip with a
warning (returning nil) when it is marked for deletion; otherwise add when
not found, update when found. -/
def syncRoutePolicy (env : RouteEnv) (routePolicy : Policy) :
    Except SyncErr Unit × List RouteAction :=
  match env.listerGet with
  | .otherErr msg => (.error (.lister msg), [])
  | .notFound =>
      -- DELETE use case
      match env.deleteResult with
      | .error msg =>
          (.error (.mgrFailed "processDeletePolicy" msg),
           [.processDeletePolicy routePolicy.name])
      | .ok _ => (.ok (), [.processDeletePolicy routePolicy.name])
  | .found =>
      -- (currentPolicy, found, markedForDeletion) := getRoutePolicyFromCache(name)
      if env.cacheLookup.2.2 then
        -- marked for deletion: skip (warning only), no error
        (.ok (), [.getRoutePolicyFromCache routePolicy.name])
      else if !env.cacheLookup.2.1 then
        -- ADD use case
        match env.addResult with
        | .error msg =>
            (.error (.mgrFailed "processAddPolicy" msg),
             [.getRoutePolicyFromCache routePolicy.name, .processAddPolicy routePolicy])
        | .ok _ =>
            (.ok (),
             [.getRoutePolicyFromCache routePolicy.name, .processAddPolicy routePolicy])
      else
        -- UPDATE use case
        match env.updateResult with
        | .error msg =>
            (.error (.mgrFailed "processUpdatePolicy" msg),
             [.getRoutePolicyFromCache routePolicy.name,
              .processUpdatePolicy env.cacheLookup.1 routePolicy])
        | .ok _ =>
            (.ok (),
             [.getRoutePolicyFromCache routePolicy.name,
              .processUpdatePolicy env.cacheLookup.1 routePolicy])

/-- Modelled from the spec: the effect of `mgr.processDeletePolicy(name)`
(not under src/) on the namespace cache — "remove all cache associations
for this policy name across every namespace it previously matched". -/
def processDeletePolicyEffect (c : Cache) (name : String) : Cache :=
  c.map (fun e => (e.1, { e.2 with policies := e.2.policies.erase name }))

/-! ### Namespace sync (`syncNamespace`) -/

/-- Manager calls and manager-internal work that `syncNamespace` can
perform, in order.  `processDeleteNamespace` is the dispatch call itself;
`teardownNamespaceEntry` is the work inside it (delete the entry's gateway
routes via the applier, remove the entry), which per the spec only happens
when an entry exists. -/
inductive NsAction where
  | processDeleteNamespace (n : String)
  | teardownNamespaceEntry (n : String)
  | newNamespaceInfoInCache (n : String)
  | processAddNamespace (n : String) (policyMatches : Finset String)
  | processUpdateNamespace (n : String) (old new : Finset String)
  | unlockNamespaceInfoCache (n : String)
deriving DecidableEq

/-- Does this action mutate the cache? Unlocking does not, and neither does
the bare `processDeleteNamespace` dispatch: its mutating work is the
separate `teardownNamespaceEntry` action, emitted only when an entry
exists. -/
def NsAction.mutates : NsAction → Bool
  | .unlockNamespaceInfoCache _ => false
  | .processDeleteNamespace _ => false
  | _ => true

/-- Does this action hand off to the dataplane applier?
Per the spec, the namespace teardown and the add/update namespace paths do;
the bare delete dispatch (which is a no-op without an entry), creating an
empty entry and unlocking do not. -/
def NsAction.callsApplier : NsAction → Bool
  | .teardownNamespaceEntry _ => true
  | .processAddNamespace _ _ => true
  | .processUpdateNamespace _ _ _ => true
  | _ => false

/-- A namespace object as `syncNamespace` reads it: its name and whether its
deletion timestamp is zero. -/
structure NsObj where
  name : String
  dtZero : Bool

/-- Environment of a `syncNamespace` call: the result of
`namespaceLister.Get`, the result of `mgr.getPoliciesForNamespace`, the
results of the three mutating manager calls, and the gateway IPs the manager
would resolve for this namespace from the current policies and pods. -/
structure NsEnv where
  listerGet : GetResult
  policiesForNs : Except SyncErr (Finset String)
  deleteNsResult : Except SyncErr Unit
  addNsResult : Except SyncErr Unit
  updateNsResult : Except SyncErr Unit
  resolvedStatic : IPSet
  resolvedDynamic : List (PodRef × IPSet)

/-- Modelled from the spec: the effect of `mgr.processDeleteNamespace`
(not under src/) — tear the entry down and remove it from the cache. -/
def processDeleteNamespaceEffect (c : Cache) (n : String) : Cache :=
  c.filter (fun e => !(e.1 = n))

/-- Modelled from the spec: the delete path hands the namespace to
`mgr.processDeleteNamespace` (not under src/), which tears its entry down —
"tear down its `NamespaceRouteInfo` entirely, releasing the lock and
removing the map entry last" — handing the route withdrawal to the applier;
when no entry exists the namespace was never a recipient of policies, there
is nothing to tear down, and the call returns nil without touching the
cache or the applier. -/
def syncNamespaceDeleteBranch (env : NsEnv) (ns : NsObj) (c : Cache) :
    Except SyncErr Unit × Cache × List NsAction :=
  match getNamespaceInfoFromCache c ns.name with
  | none => (.ok (), c, [.processDeleteNamespace ns.name])
  | some _ =>
    match env.deleteNsResult with
    | .ok _ => (.ok (), processDeleteNamespaceEffect c ns.name,
                [.processDeleteNamespace ns.name, .teardownNamespaceEntry ns.name])
    | .error e => (.error e, c,
                   [.processDeleteNamespace ns.name, .teardownNamespaceEntry ns.name])

/-- `syncNamespace` (node_controller.go:418-464).  Absent or deleting
namespaces take the delete path; otherwise the matching policies are
computed and compared with the cache entry: no entry and no matches is a
no-op, a tombstoned entry is a retryable error, no entry is the add path,
different policy sets is the update path, equal sets is a no-op.  The
`defer unlockNamespaceInfoCache` covers every exit past the cache lookup.
Effects of the manager calls (not under src/) are modelled from the spec:
on success the entry holds the computed matches and the resolved gateways.
Returns (result, cache after, call trace). -/
def syncNamespace (env : NsEnv) (ns : NsObj) (c : Cache) :
    Except SyncErr Unit × Cache × List NsAction :=
  match env.listerGet with
  | .otherErr msg => (.error (.lister msg), c, [])
  | .notFound =>
      -- DELETE use case (`IsNotFound(err) || !DeletionTimestamp.IsZero()`)
      syncNamespaceDeleteBranch env ns c
  | .found =>
    if !ns.dtZero then
      -- DELETE use case (deletion timestamp set)
      syncNamespaceDeleteBranch env ns c
    else
      match env.policiesForNs with
      | .error e => (.error e, c, [])
      | .ok policyMatches =>
        match getNamespaceInfoFromCache c ns.name with
        | none =>
          if policyMatches = ∅ then
            -- not cached and not a target for policies, nothing to do
            (.ok (), c, [])
          else
            -- ADD use case (deferred unlock appended last)
            let fresh : NamespaceInfo :=
              { policies := policyMatches, markForDelete := false,
                staticGateways := ∅, dynamicGateways := [] }
            match env.addNsResult with
            | .ok _ =>
                (.ok (),
                 setNs c ns.name { fresh with staticGateways := env.resolvedStatic,
                                              dynamicGateways := env.resolvedDynamic },
                 [.newNamespaceInfoInCache ns.name,
                  .processAddNamespace ns.name policyMatches,
                  .unlockNamespaceInfoCache ns.name])
            | .error e =>
                (.error e, setNs c ns.name fresh,
                 [.newNamespaceInfoInCache ns.name,
                  .processAddNamespace ns.name policyMatches,
                  .unlockNamespaceInfoCache ns.name])
        | some cacheInfo =>
          if cacheInfo.markForDelete then
            -- marked for deletion: retryable error, no mutation
            (.error (.inProgress ns.name), c, [.unlockNamespaceInfoCache ns.name])
          else if cacheInfo.policies ≠ policyMatches then
            -- UPDATE use case
            match env.updateNsResult with
            | .ok _ =>
                (.ok (),
                 setNs c ns.name { cacheInfo with policies := policyMatches,
                                                  staticGateways := env.resolvedStatic,
                                                  dynamicGateways := env.resolvedDynamic },
                 [.processUpdateNamespace ns.name cacheInfo.policies policyMatches,
                  .unlockNamespaceInfoCache ns.name])
            | .error e =>
                (.error e, c,
                 [.processUpdateNamespace ns.name cacheInfo.policies policyMatches,
                  .unlockNamespaceInfoCache ns.name])
          else
            (.ok (), c, [.unlockNamespaceInfoCache ns.name])

/-! ### Work-item loops -/

/-- Workqueue operations a worker performs on the dequeued item, in
execution order (the deferred `Done` runs last). -/
inductive QueueOp where
  | addRateLimited
  | forget
  | done
deriving DecidableEq, Repr

/-- `processNextPolicyWorkItem` (node_controller.go:264-290): dequeue; on
shutdown stop; call sync; on error requeue rate-limited while
`NumRequeues < maxRetries`, otherwise log, drop and `Forget`; on success
`Forget`; the deferred `Done` always runs for a dequeued item.
Inputs are the dequeue's shutdown flag, the result of `syncRoutePolicy`,
the item's requeue count and the retry cap; output is the returned Bool and
the queue-operation trace. -/
def processNextPolicyWorkItem (shutdown : Bool) (syncResult : Except SyncErr Unit)
    (numRequeues maxRetries : Nat) : Bool × List QueueOp :=
  if shutdown then (false, [])
  else
    match syncResult with
    | .error _ =>
        if numRequeues < maxRetries then (true, [.addRateLimited, .done])
        else (true, [.forget, .done])
    | .ok _ => (true, [.forget, .done])

/-- `processNextNamespaceWorkItem` (node_controller.go:392-416): same
retry/forget/done discipline as the policy worker, over `syncNamespace`. -/
def processNextNamespaceWorkItem (shutdown : Bool) (syncResult : Except SyncErr Unit)
    (numRequeues maxRetries : Nat) : Bool × List QueueOp :=
  if shutdown then (false, [])
  else
    match syncResult with
    | .error _ =>
        if numRequeues < maxRetries then (true, [.addRateLimited, .done])
        else (true, [.forget, .done])
    | .ok _ => (true, [.forget, .done])

/-- `processNextPodWorkItem` (node_controller.go:532-558): same
retry/forget/done discipline as the policy worker, over `syncPod`. -/
def processNextPodWorkItem (shutdown : Bool) (syncResult : Except SyncErr Unit)
    (numRequeues maxRetries : Nat) : Bool × List QueueOp :=
  if shutdown then (false, [])
  else
    match syncResult with
    | .error _ =>
        if numRequeues < maxRetries then (true, [.addRateLimited, .done])
        else (true, [.forget, .done])
    | .ok _ => (true, [.forget, .done])

/-! ### Pod admission filters and pod sync -/

/-- A pod as the admission filters and `syncPod` read it: identity, labels,
assigned IPs (`Status.PodIPs`, order-sensitive under `reflect.DeepEqual`),
the multus network-status annotation value (`""` when absent), and whether
the deletion timestamp is zero.  Labels are a set of key/value pairs, since
`reflect.DeepEqual` on Go maps ignores iteration order. -/
structure PodObj where
  ref : PodRef
  labels : Finset (String × String)
  podIPs : List String
  netStatusAnnot : String
  dtZero : Bool

/-- `onPodAdd` (node_controller.go:466-481): skip the pod when it has no
assigned IPs and no multus network-status annotation; otherwise enqueue.
Returns whether the pod is enqueued. -/
def onPodAdd (pod : PodObj) : Bool :=
  if pod.podIPs.length = 0 ∧ pod.netStatusAnnot.length = 0 then false else true

/-- `onPodUpdate` (node_controller.go:483-506): skip when labels, assigned
IPs and the network-status annotation are all unchanged; otherwise enqueue.
Returns whether the new pod is enqueued. -/
def onPodUpdate (o n : PodObj) : Bool :=
  if o.labels = n.labels ∧ o.podIPs = n.podIPs ∧ o.netStatusAnnot = n.netStatusAnnot then
    false
  else true

/-- The argument of `onPodDelete`: a pod, a `DeletedFinalStateUnknown`
tombstone wrapping a pod, or a tombstone wrapping something else. -/
inductive PodDeleteObj where
  | pod (p : PodObj)
  | tombstonePod (p : PodObj)
  | tombstoneOther

/-- `onPodDelete` (node_controller.go:508-525): unwrap a tombstone if
needed; enqueue whenever a pod was obtained.  Returns whether the pod is
enqueued. -/
def onPodDelete : PodDeleteObj → Bool
  | .pod _ => true
  | .tombstonePod _ => true
  | .tombstoneOther => false

/-- Manager calls that `syncPod` can perform, in order. -/
inductive PodAction where
  | filterNamespacesUsingPodGateway (p : PodRef)
  | processDeletePod (p : PodRef) (nss : Finset String)
  | processAddPod (p : PodRef)
  | processUpdatePod (p : PodRef) (nss : Finset String)
deriving DecidableEq

/-- Does this manager call mutate the cache? The reverse-index query does
not. -/
def PodAction.mutates : PodAction → Bool
  | .filterNamespacesUsingPodGateway _ => false
  | _ => true

/-- Environment of a `syncPod` call: the result of `podLister...Get`, the
reverse-index query result (`mgr.filterNamespacesUsingPodGateway`), and the
results of the three mutating manager calls. -/
structure PodEnv where
  listerGet : GetResult
  gatewayNamespaces : Finset String
  deletePodResult : Except SyncErr Unit
  addPodResult : Except SyncErr Unit
  updatePodResult : Except SyncErr Unit

/-- `syncPod` (node_controller.go:560-585): a non-NotFound lister error is
returned; then the reverse index gives the namespaces this pod gateways
for; absent or terminating pods take the delete path (a no-op when that
set is empty); live pods take the add path when the set is empty, the
update path otherwise. -/
def syncPodDeleteBranch (env : PodEnv) (pod : PodObj) :
    Except SyncErr Unit × List PodAction :=
  if env.gatewayNamespaces = ∅ then
    (.ok (), [PodAction.filterNamespacesUsingPodGateway pod.ref])
  else
    (env.deletePodResult,
     [PodAction.filterNamespacesUsingPodGateway pod.ref,
      .processDeletePod pod.ref env.gatewayNamespaces])

def syncPod (env : PodEnv) (pod : PodObj) : Except SyncErr Unit × List PodAction :=
  match env.listerGet with
  | .otherErr msg => (.error (.lister msg), [])
  | .notFound =>
      -- DELETE case (`IsNotFound(err) || !DeletionTimestamp.IsZero()`)
      syncPodDeleteBranch env pod
  | .found =>
    if !pod.dtZero then
      -- DELETE case (deletion timestamp set)
      syncPodDeleteBranch env pod
    else if env.gatewayNamespaces = ∅ then
      -- ADD case
      (env.addPodResult,
       [PodAction.filterNamespacesUsingPodGateway pod.ref, .processAddPod pod.ref])
    else
      -- UPDATE case
      (env.updatePodResult,
       [PodAction.filterNamespacesUsingPodGateway pod.ref,
        .processUpdatePod pod.ref env.gatewayNamespaces])

/-- Modelled from the spec: the effect of `mgr.processDeletePod` (not under
src/) — "remove this pod's contribution from each matched namespace's
dynamic IP set and drop the reverse-index entry". -/
def processDeletePodEffect (c : Cache) (p : PodRef) (nss : Finset String) : Cache :=
  c.map (fun e =>
    if e.1 ∈ nss then
      (e.1, { e.2 with dynamicGateways := e.2.dynamicGateways.filter (fun g => !(g.1 = p)) })
    else e)

/-- Modelled from the spec: the per-namespace step with which
`mgr.processAddPod`, `mgr.processUpdatePod` and `mgr.processDeletePod`
(none under src/; `syncPod` only dispatches to them) apply a gateway pod's
contribution `f` to a namespace's cache entry — "once a namespace entry is
`MarkedForDelete`, any policy/pod sync targeting it fails with the
InProgress error and performs no mutation, until the entry is fully
removed". -/
def applyPodChangeToNamespace (c : Cache) (n : String)
    (f : NamespaceInfo → NamespaceInfo) : Except SyncErr Cache :=
  match getNamespaceInfoFromCache c n with
  | none => .ok c
  | some info =>
    if info.markForDelete then .error (.inProgress n)
    else .ok (setNs c n (f info))

/-! ### Exposed read API -/

/-- Manager lookups that the exposed read API performs, in order. -/
inductive GwAction where
  | getDynamicGatewayIPs (n : String)
  | getStaticGatewayIPs (n : String)
deriving DecidableEq

/-- Environment of a `GetAdminPolicyBasedExternalRouteIPsForTargetNamespace`
call: the results of `mgr.getDynamicGatewayIPsForTargetNamespace` and
`mgr.getStaticGatewayIPsForTargetNamespace`. -/
structure GwEnv where
  dynamicResult : Except SyncErr IPSet
  staticResult : Except SyncErr IPSet

/-- `GetAdminPolicyBasedExternalRouteIPsForTargetNamespace`
(node_controller.go:587-598): resolve the dynamic gateway IPs, returning
`(nil, err)` on failure; then the static ones, returning `(nil, err)` on
failure; on success return the union.  The Go pair `(sets.Set[string],
error)` is `(Option IPSet × Option SyncErr)`. -/
def GetAdminPolicyBasedExternalRouteIPsForTargetNamespace (env : GwEnv)
    (namespaceName : String) : (Option IPSet × Option SyncErr) × List GwAction :=
  match env.dynamicResult with
  | .error e => ((none, some e), [.getDynamicGatewayIPs namespaceName])
  | .ok gwIPs =>
    match env.staticResult with
    | .error e =>
        ((none, some e),
         [.getDynamicGatewayIPs namespaceName, .getStaticGatewayIPs namespaceName])
    | .ok tmpIPs =>
        ((some (gwIPs ∪ tmpIPs), none),
         [.getDynamicGatewayIPs namespaceName, .getStaticGatewayIPs namespaceName])

/-! ### Claim theorems -/

theorem lookup_setNs_self (c : Cache) (n : String) (i : NamespaceInfo) :
    getNamespaceInfoFromCache (setNs c n i) n = some i := by
  induction c with
  | nil => simp [setNs, getNamespaceInfoFromCache, List.find?]
  | cons hd tl ih =>
    by_cases hh : hd.1 = n
    · simp [setNs, hh, getNamespaceInfoFromCache, List.find?]
    · simp only [setNs, if_neg hh]
      unfold getNamespaceInfoFromCache at ih ⊢
      rw [List.find?]
      simp only [decide_eq_false hh, Bool.false_eq_true, if_false]
      exact ih

theorem processDeletePolicyEffect_clears (c : Cache) (name : String) :
    ∀ e ∈ processDeletePolicyEffect c name, name ∉ e.2.policies := by
  intro e he
  unfold processDeletePolicyEffect at he
  rcases List.mem_map.mp he with ⟨a, _, rfl⟩
  exact Finset.not_mem_erase name a.2.policies

theorem processDeletePodEffect_clears (c : Cache) (p : PodRef) (nss : Finset String) :
    ∀ e ∈ processDeletePodEffect c p nss, e.1 ∈ nss →
      ∀ g ∈ e.2.dynamicGateways, g.1 ≠ p := by
  intro e he hns g hg
  unfold processDeletePodEffect at he
  rcases List.mem_map.mp he with ⟨a, _, rfl⟩
  by_cases h : a.1 ∈ nss
  · simp only [h, if_true] at hg hns
    rcases List.mem_filter.mp hg with ⟨_, hfilt⟩
    intro hcontra
    simp [hcontra] at hfilt
  · simp [h] at hns


/-- Claim C4: for each of the three worker pools, per dequeued item: a Sync
error with requeue count below `maxRetries` re-adds the item rate-limited
(and does not Forget it); a Sync error with retries exhausted drops the item
(no re-add) after Forget; a successful Sync calls Forget; in every case the
deferred Done runs, and the loop continues. -/
theorem c4_workers_retry_drop_done (r : Except SyncErr Unit) (n maxR : Nat) :
    processNextPolicyWorkItem false r n maxR = processNextNamespaceWorkItem false r n maxR ∧
    processNextPolicyWorkItem false r n maxR = processNextPodWorkItem false r n maxR ∧
    ((∃ e, r = Except.error e) → n < maxR →
      processNextPolicyWorkItem false r n maxR = (true, [.addRateLimited, .done])) ∧
    ((∃ e, r = Except.error e) → ¬ n < maxR →
      processNextPolicyWorkItem false r n maxR = (true, [.forget, .done])) ∧
    (r = .ok () →
      processNextPolicyWorkItem false r n maxR = (true, [.forget, .done])) ∧
    QueueOp.done ∈ (processNextPolicyWorkItem false r n maxR).2 ∧
    (processNextPolicyWorkItem false r n maxR).1 = true := by
  unfold processNextPolicyWorkItem processNextNamespaceWorkItem processNextPodWorkItem
  cases r with
  | error e =>
    by_cases h : n < maxR <;>
      simp [h]
  | ok u =>
    simp

/-- Closed witness for `c4_workers_retry_drop_done` at a concrete error
result with one requeue left. -/
theorem c4_workers_retry_drop_done_witness :
    ((∃ e, (Except.error (SyncErr.lister "boom") : Except SyncErr Unit) = Except.error e) →
      (3 : Nat) < 5 →
      processNextPolicyWorkItem false (Except.error (SyncErr.lister "boom")) 3 5
        = (true, [.addRateLimited, .done])) ∧
    processNextPolicyWorkItem false (Except.error (SyncErr.lister "boom")) 3 5
      = (true, [.addRateLimited, .done]) := by
  refine ⟨(c4_workers_retry_drop_done (Except.error (SyncErr.lister "boom")) 3 5).2.2.1, ?_⟩
  exact (c4_workers_retry_drop_done (Except.error (SyncErr.lister "boom")) 3 5).2.2.1
    ⟨_, rfl⟩ (by decide)

/-- Claim C10: in each worker loop Forget runs exactly when the item is not
re-queued: on success, and on an error once the retry budget is exhausted;
it is skipped precisely when the item is re-added for another retry. -/
theorem c10_forget_iff_not_requeued (r : Except SyncErr Unit) (n maxR : Nat) :
    (QueueOp.forget ∈ (processNextPolicyWorkItem false r n maxR).2 ↔
      ¬((∃ e, r = Except.error e) ∧ n < maxR)) ∧
    (QueueOp.forget ∈ (processNextNamespaceWorkItem false r n maxR).2 ↔
      ¬((∃ e, r = Except.error e) ∧ n < maxR)) ∧
    (QueueOp.forget ∈ (processNextPodWorkItem false r n maxR).2 ↔
      ¬((∃ e, r = Except.error e) ∧ n < maxR)) ∧
    (QueueOp.addRateLimited ∈ (processNextPolicyWorkItem false r n maxR).2 ↔
      ((∃ e, r = Except.error e) ∧ n < maxR)) := by
  unfold processNextPolicyWorkItem processNextNamespaceWorkItem processNextPodWorkItem
  cases r with
  | error e =>
    by_cases h : n < maxR <;> simp [h]
  | ok u =>
    simp

/-- Closed witness for `c10_forget_iff_not_requeued`: a successful sync is
never requeued, so Forget runs. -/
theorem c10_forget_iff_not_requeued_witness :
    QueueOp.forget ∈ (processNextPolicyWorkItem false (.ok ()) 0 5).2 := by
  refine ((c10_forget_iff_not_requeued (.ok ()) 0 5).1).mpr ?_
  rintro ⟨⟨e, he⟩, _⟩
  exact Except.noConfusion he

theorem string_length_zero_iff (s : String) : s.length = 0 ↔ s = "" := by
  cases s with
  | mk data =>
    cases data with
    | nil => simp
    | cons a l =>
      simp only [String.length]
      constructor
      · intro h; simp at h
      · intro h
        have hd := congrArg String.data h
        simp at hd

/-- Claim C7: the pod admission filters enqueue exactly as specified: add
iff the pod has an assigned IP or a non-empty network-status annotation;
update iff labels, assigned IPs, or the annotation differ; delete always,
both for a plain pod and for a tombstone wrapping a pod. -/
theorem c7_pod_admission (o n p pd : PodObj) :
    (onPodAdd p = true ↔ (p.podIPs ≠ [] ∨ p.netStatusAnnot ≠ "")) ∧
    (onPodUpdate o n = true ↔
      (o.labels ≠ n.labels ∨ o.podIPs ≠ n.podIPs ∨ o.netStatusAnnot ≠ n.netStatusAnnot)) ∧
    onPodDelete (.pod pd) = true ∧
    onPodDelete (.tombstonePod pd) = true := by
  refine ⟨?_, ?_, rfl, rfl⟩
  · unfold onPodAdd
    by_cases h : p.podIPs.length = 0 ∧ p.netStatusAnnot.length = 0
    · simp only [if_pos h]
      have h1 : p.podIPs = [] := List.length_eq_zero.mp h.1
      have h2 : p.netStatusAnnot = "" := (string_length_zero_iff _).mp h.2
      simp [h1, h2]
    · simp only [if_neg h]
      simp only [true_iff]
      by_contra hno
      push_neg at hno
      exact h ⟨by simp [hno.1], (string_length_zero_iff _).mpr hno.2⟩
  · unfold onPodUpdate
    by_cases h : o.labels = n.labels ∧ o.podIPs = n.podIPs ∧ o.netStatusAnnot = n.netStatusAnnot
    · simp only [if_pos h]
      constructor
      · intro hfalse; cases hfalse
      · intro hor
        rcases hor with h1 | h1 | h1
        · exact absurd h.1 h1
        · exact absurd h.2.1 h1
        · exact absurd h.2.2 h1
    · simp only [if_neg h]
      simp only [true_iff]
      by_contra hno
      push_neg at hno
      exact h ⟨hno.1, hno.2.1, hno.2.2⟩

/-- Closed witness for `c7_pod_admission`: a pod with an assigned IP is
enqueued on add. -/
theorem c7_pod_admission_witness :
    onPodAdd ⟨⟨"default", "gw1"⟩, ∅, ["192.168.1.9"], "", true⟩ = true := by
  exact ((c7_pod_admission ⟨⟨"default", "gw1"⟩, ∅, ["192.168.1.9"], "", true⟩
    ⟨⟨"default", "gw1"⟩, ∅, ["192.168.1.9"], "", true⟩
    ⟨⟨"default", "gw1"⟩, ∅, ["192.168.1.9"], "", true⟩
    ⟨⟨"default", "gw1"⟩, ∅, ["192.168.1.9"], "", true⟩).1).mpr
    (Or.inl (by simp))

/-- Claim C8: when both manager lookups succeed, the exposed read API
returns exactly the union of the dynamic and static gateway IP sets, with
set semantics (membership is membership in either side). -/
theorem c8_read_api_union (env : GwEnv) (nsName : String) (d s : IPSet)
    (hd : env.dynamicResult = .ok d) (hs : env.staticResult = .ok s) :
    (GetAdminPolicyBasedExternalRouteIPsForTargetNamespace env nsName).1
      = (some (d ∪ s), none) ∧
    (∀ x, x ∈ d ∪ s ↔ (x ∈ d ∨ x ∈ s)) ∧
    d ∪ s = s ∪ d := by
  refine ⟨?_, fun x => Finset.mem_union, Finset.union_comm d s⟩
  unfold GetAdminPolicyBasedExternalRouteIPsForTargetNamespace
  rw [hd, hs]

/-- Closed witness for `c8_read_api_union` at concrete IP sets. -/
theorem c8_read_api_union_witness :
    (GetAdminPolicyBasedExternalRouteIPsForTargetNamespace
        ⟨.ok {"10.0.0.5"}, .ok {"10.0.0.5", "192.168.1.9"}⟩ "ns1").1
      = (some ({"10.0.0.5"} ∪ {"10.0.0.5", "192.168.1.9"}), none) := by
  exact (c8_read_api_union ⟨.ok {"10.0.0.5"}, .ok {"10.0.0.5", "192.168.1.9"}⟩
    "ns1" {"10.0.0.5"} {"10.0.0.5", "192.168.1.9"} rfl rfl).1

/-- Claim C9: if the dynamic-IP lookup fails, the static lookup is never
attempted and the result is `(nil, err)`; if the static lookup fails the
result is likewise `(nil, err)` — a caller never sees a partial union. -/
theorem c9_read_api_short_circuit (env : GwEnv) (nsName : String) :
    (∀ e, env.dynamicResult = .error e →
      (GetAdminPolicyBasedExternalRouteIPsForTargetNamespace env nsName).1 = (none, some e) ∧
      GwAction.getStaticGatewayIPs nsName ∉
        (GetAdminPolicyBasedExternalRouteIPsForTargetNamespace env nsName).2) ∧
    (∀ d e, env.dynamicResult = .ok d → env.staticResult = .error e →
      (GetAdminPolicyBasedExternalRouteIPsForTargetNamespace env nsName).1 = (none, some e)) := by
  constructor
  · intro e he
    unfold GetAdminPolicyBasedExternalRouteIPsForTargetNamespace
    rw [he]
    simp
  · intro d e hd he
    unfold GetAdminPolicyBasedExternalRouteIPsForTargetNamespace
    rw [hd, he]

/-- Closed witness for `c9_read_api_short_circuit` with a failing dynamic
lookup. -/
theorem c9_read_api_short_circuit_witness :
    (GetAdminPolicyBasedExternalRouteIPsForTargetNamespace
        ⟨.error (SyncErr.lister "down"), .ok ∅⟩ "ns1").1
      = (none, some (SyncErr.lister "down")) := by
  exact ((c9_read_api_short_circuit ⟨.error (SyncErr.lister "down"), .ok ∅⟩ "ns1").1
    (SyncErr.lister "down") rfl).1

theorem syncNamespace_tombstone_aux (env : NsEnv) (ns : NsObj) (c : Cache)
    (info : NamespaceInfo) (m : Finset String)
    (h1 : env.listerGet = .found) (h2 : ns.dtZero = true)
    (h3 : env.policiesForNs = .ok m)
    (h4 : getNamespaceInfoFromCache c ns.name = some info)
    (h5 : info.markForDelete = true) :
    syncNamespace env ns c
      = (.error (.inProgress ns.name), c, [.unlockNamespaceInfoCache ns.name]) := by
  unfold syncNamespace
  rw [h1]
  simp [h2, h3, h4, h5]

theorem syncRoutePolicy_marked_skip_aux (env : RouteEnv) (rp : Policy)
    (h1 : env.listerGet = .found) (h2 : env.cacheLookup.2.2 = true) :
    syncRoutePolicy env rp = (.ok (), [.getRoutePolicyFromCache rp.name]) := by
  unfold syncRoutePolicy
  rw [h1]
  simp [h2]

/-- Claim C2: when the namespace is present in the authoritative listing,
its deletion timestamp is zero, the policy-match computation succeeds and a
cache entry exists with `markForDelete = true`, `syncNamespace` returns the
retryable "deletion in progress" error, leaves the cache untouched, and
performs no mutating manager call (only the deferred unlock). -/
theorem c2_syncNamespace_tombstone_error (env : NsEnv) (ns : NsObj) (c : Cache)
    (info : NamespaceInfo) (m : Finset String)
    (h1 : env.listerGet = .found) (h2 : ns.dtZero = true)
    (h3 : env.policiesForNs = .ok m)
    (h4 : getNamespaceInfoFromCache c ns.name = some info)
    (h5 : info.markForDelete = true) :
    syncNamespace env ns c
      = (.error (.inProgress ns.name), c, [.unlockNamespaceInfoCache ns.name]) ∧
    ∀ a ∈ (syncNamespace env ns c).2.2, a.mutates = false := by
  have hmain := syncNamespace_tombstone_aux env ns c info m h1 h2 h3 h4 h5
  refine ⟨hmain, ?_⟩
  rw [hmain]
  intro a ha
  simp only [List.mem_singleton] at ha
  subst ha
  rfl

/-- Closed witness for `c2_syncNamespace_tombstone_error`: a tombstoned
entry for `ns1`. -/
theorem c2_syncNamespace_tombstone_error_witness :
    syncNamespace
      ⟨.found, .ok {"p1"}, .ok (), .ok (), .ok (), ∅, []⟩
      ⟨"ns1", true⟩
      [("ns1", ⟨{"p1"}, true, ∅, []⟩)]
      = (.error (.inProgress "ns1"), [("ns1", ⟨{"p1"}, true, ∅, []⟩)],
         [.unlockNamespaceInfoCache "ns1"]) := by
  exact (c2_syncNamespace_tombstone_error
    ⟨.found, .ok {"p1"}, .ok (), .ok (), .ok (), ∅, []⟩
    ⟨"ns1", true⟩
    [("ns1", ⟨{"p1"}, true, ∅, []⟩)]
    ⟨{"p1"}, true, ∅, []⟩ {"p1"}
    rfl rfl rfl (by decide) rfl).1

/-- Claim C3: `syncRoutePolicy` dispatches as specified — absent from the
authoritative listing runs the delete path (whose modelled effect removes
the policy name from every namespace entry); present but not cached runs
`processAddPolicy`; present, cached and not tombstoned runs
`processUpdatePolicy` with the cached policy and the new one. -/
theorem c3_syncRoutePolicy_dispatch (env : RouteEnv) (rp : Policy) :
    (env.listerGet = .notFound →
      (syncRoutePolicy env rp).2 = [.processDeletePolicy rp.name] ∧
      (env.deleteResult = .ok () → (syncRoutePolicy env rp).1 = .ok ()) ∧
      (∀ c, ∀ e ∈ processDeletePolicyEffect c rp.name, rp.name ∉ e.2.policies)) ∧
    (env.listerGet = .found → env.cacheLookup.2.1 = false →
      env.cacheLookup.2.2 = false →
      (syncRoutePolicy env rp).2
        = [.getRoutePolicyFromCache rp.name, .processAddPolicy rp]) ∧
    (env.listerGet = .found → env.cacheLookup.2.1 = true →
      env.cacheLookup.2.2 = false →
      (syncRoutePolicy env rp).2
        = [.getRoutePolicyFromCache rp.name,
           .processUpdatePolicy env.cacheLookup.1 rp]) := by
  refine ⟨?_, ?_, ?_⟩
  · intro h
    unfold syncRoutePolicy
    rw [h]
    refine ⟨?_, ?_, fun c => processDeletePolicyEffect_clears c rp.name⟩
    · cases hd : env.deleteResult <;> simp [hd]
    · intro hok
      simp [hok]
  · intro h hfound hmarked
    unfold syncRoutePolicy
    rw [h]
    simp [hfound, hmarked]
    cases ha : env.addResult <;> simp [ha]
  · intro h hfound hmarked
    unfold syncRoutePolicy
    rw [h]
    simp [hfound, hmarked]
    cases hu : env.updateResult <;> simp [hu]

/-- Closed witness for `c3_syncRoutePolicy_dispatch`: the delete path for a
policy absent from the listing. -/
theorem c3_syncRoutePolicy_dispatch_witness :
    (syncRoutePolicy ⟨.notFound, (⟨"p1", ""⟩, false, false), .ok (), .ok (), .ok ()⟩
        ⟨"p1", "v1"⟩).2 = [.processDeletePolicy "p1"] := by
  exact ((c3_syncRoutePolicy_dispatch
    ⟨.notFound, (⟨"p1", ""⟩, false, false), .ok (), .ok (), .ok ()⟩
    ⟨"p1", "v1"⟩).1 rfl).1

/-- Claim C6: `syncPod` dispatches as specified — an absent or terminating
pod is a no-op when the reverse-index set is empty and otherwise runs
`processDeletePod` (whose modelled effect removes the pod's contribution
from each matched namespace's dynamic gateway set); a live pod runs
`processAddPod` when the reverse-index set is empty and `processUpdatePod`
otherwise. -/
theorem c6_syncPod_dispatch (env : PodEnv) (pod : PodObj)
    (hok : ∀ msg, env.listerGet ≠ .otherErr msg) :
    ((env.listerGet = .notFound ∨ pod.dtZero = false) →
      (env.gatewayNamespaces = ∅ →
        syncPod env pod = (.ok (), [.filterNamespacesUsingPodGateway pod.ref])) ∧
      (env.gatewayNamespaces ≠ ∅ →
        (syncPod env pod).2
          = [.filterNamespacesUsingPodGateway pod.ref,
             .processDeletePod pod.ref env.gatewayNamespaces] ∧
        (syncPod env pod).1 = env.deletePodResult ∧
        (∀ c, ∀ e ∈ processDeletePodEffect c pod.ref env.gatewayNamespaces,
          e.1 ∈ env.gatewayNamespaces → ∀ g ∈ e.2.dynamicGateways, g.1 ≠ pod.ref))) ∧
    (env.listerGet = .found → pod.dtZero = true →
      (env.gatewayNamespaces = ∅ →
        (syncPod env pod).2
          = [.filterNamespacesUsingPodGateway pod.ref, .processAddPod pod.ref] ∧
        (syncPod env pod).1 = env.addPodResult) ∧
      (env.gatewayNamespaces ≠ ∅ →
        (syncPod env pod).2
          = [.filterNamespacesUsingPodGateway pod.ref,
             .processUpdatePod pod.ref env.gatewayNamespaces] ∧
        (syncPod env pod).1 = env.updatePodResult)) := by
  constructor
  · intro hdel
    have hbranch : syncPod env pod = syncPodDeleteBranch env pod := by
      rcases hdel with h | h
      · unfold syncPod
        rw [h]
      · cases hg : env.listerGet with
        | otherErr msg => exact absurd hg (by intro hc; exact hok msg hc)
        | notFound => unfold syncPod; rw [hg]
        | found =>
          unfold syncPod
          rw [hg]
          simp [h]
    rw [hbranch]
    constructor
    · intro hempty
      unfold syncPodDeleteBranch
      simp [hempty]
    · intro hne
      unfold syncPodDeleteBranch
      simp only [if_neg hne]
      exact ⟨by trivial, by trivial,
        fun c => processDeletePodEffect_clears c pod.ref env.gatewayNamespaces⟩
  · intro hfound hlive
    unfold syncPod
    rw [hfound]
    simp only [hlive, Bool.not_true, Bool.false_eq_true, if_false]
    constructor
    · intro hempty
      simp [hempty]
    · intro hne
      simp [hne]

/-- Closed witness for `c6_syncPod_dispatch`: a live pod with an empty
reverse-index set takes the add path. -/
theorem c6_syncPod_dispatch_witness :
    (syncPod ⟨.found, ∅, .ok (), .ok (), .ok ()⟩
        ⟨⟨"default", "gw1"⟩, ∅, ["192.168.1.9"], "", true⟩).2
      = [.filterNamespacesUsingPodGateway ⟨"default", "gw1"⟩,
         .processAddPod ⟨"default", "gw1"⟩] := by
  exact (((c6_syncPod_dispatch ⟨.found, ∅, .ok (), .ok (), .ok ()⟩
    ⟨⟨"default", "gw1"⟩, ∅, ["192.168.1.9"], "", true⟩
    (fun msg h => by cases h)).2 rfl rfl).1 rfl).1

/-- Claim C1 (counterexample): with the policy present in the listing and
its cached namespace entry marked for deletion, `syncRoutePolicy` returns
nil — not the InProgress (or any) error — refuting "every policy or pod
sync targeting it fails with the InProgress (retryable) error". -/
theorem c1_counterexample_policy_sync_skips :
    (syncRoutePolicy ⟨.found, (⟨"p1", "v0"⟩, true, true), .ok (), .ok (), .ok ()⟩
        ⟨"p1", "v1"⟩).1 = Except.ok () ∧
    ∀ e, (syncRoutePolicy ⟨.found, (⟨"p1", "v0"⟩, true, true), .ok (), .ok (), .ok ()⟩
        ⟨"p1", "v1"⟩).1 ≠ Except.error e := by
  constructor
  · rfl
  · intro e h
    exact Except.noConfusion h

/-- Claim C1 (amended): once a namespace's cache entry is MarkedForDelete,
every pod sync targeting it fails with the InProgress (retryable) error and
performs no mutation of that entry, until the entry is fully removed; the
policy sync differs only in its error mode: `syncRoutePolicy`, on finding
the policy's cached namespace entry marked for deletion, skips — returning
nil rather than the InProgress error — and performs no mutation, in
particular calling neither `processAddPolicy` nor `processUpdatePolicy`. -/
theorem c1_amended_tombstone_no_mutation
    (envR : RouteEnv) (rp : Policy)
    (c : Cache) (n : String) (info : NamespaceInfo)
    (f : NamespaceInfo → NamespaceInfo)
    (hR1 : envR.listerGet = .found) (hR2 : envR.cacheLookup.2.2 = true)
    (hp1 : getNamespaceInfoFromCache c n = some info)
    (hp2 : info.markForDelete = true) :
    (applyPodChangeToNamespace c n f = .error (.inProgress n) ∧
     ∀ c2, applyPodChangeToNamespace c n f ≠ .ok c2) ∧
    ((syncRoutePolicy envR rp).1 = .ok () ∧
     (∀ a ∈ (syncRoutePolicy envR rp).2, a.mutates = false) ∧
     (∀ cur new, RouteAction.processUpdatePolicy cur new ∉ (syncRoutePolicy envR rp).2) ∧
     (∀ p, RouteAction.processAddPolicy p ∉ (syncRoutePolicy envR rp).2)) := by
  have hskip := syncRoutePolicy_marked_skip_aux envR rp hR1 hR2
  have hpod : applyPodChangeToNamespace c n f = .error (.inProgress n) := by
    unfold applyPodChangeToNamespace
    rw [hp1]
    simp [hp2]
  refine ⟨⟨hpod, ?_⟩, ?_, ?_, ?_, ?_⟩
  · intro c2 hc
    rw [hpod] at hc
    exact Except.noConfusion hc
  · rw [hskip]
  · rw [hskip]
    intro a ha
    simp only [List.mem_singleton] at ha
    subst ha
    rfl
  · rw [hskip]
    intro cur new hmem
    simp at hmem
  · rw [hskip]
    intro p hmem
    simp at hmem

/-- Closed witness for `c1_amended_tombstone_no_mutation` at a concrete
marked-for-deletion entry for `ns1` and policy `p1`. -/
theorem c1_amended_tombstone_no_mutation_witness :
    applyPodChangeToNamespace [("ns1", ⟨{"p1"}, true, ∅, []⟩)] "ns1" id
      = .error (.inProgress "ns1") ∧
    (syncRoutePolicy ⟨.found, (⟨"p1", "v0"⟩, true, true), .ok (), .ok (), .ok ()⟩
        ⟨"p1", "v1"⟩).1 = .ok () := by
  have h := c1_amended_tombstone_no_mutation
    ⟨.found, (⟨"p1", "v0"⟩, true, true), .ok (), .ok (), .ok ()⟩ ⟨"p1", "v1"⟩
    [("ns1", ⟨{"p1"}, true, ∅, []⟩)] "ns1" ⟨{"p1"}, true, ∅, []⟩ id
    rfl rfl (by decide) rfl
  exact ⟨h.1.1, h.2.1⟩

theorem syncNamespace_noentry_nomatch_aux (env : NsEnv) (ns : NsObj) (c : Cache)
    (m : Finset String)
    (h1 : env.listerGet = .found) (h2 : ns.dtZero = true)
    (h3 : env.policiesForNs = .ok m)
    (h4 : getNamespaceInfoFromCache c ns.name = none) (h5 : m = ∅) :
    syncNamespace env ns c = (.ok (), c, []) := by
  unfold syncNamespace
  rw [h1]
  simp [h2, h3, h4, h5]

theorem syncNamespace_equal_noop_aux (env : NsEnv) (ns : NsObj) (c : Cache)
    (m : Finset String) (info : NamespaceInfo)
    (h1 : env.listerGet = .found) (h2 : ns.dtZero = true)
    (h3 : env.policiesForNs = .ok m)
    (h4 : getNamespaceInfoFromCache c ns.name = some info)
    (h5 : info.markForDelete = false) (h6 : info.policies = m) :
    syncNamespace env ns c = (.ok (), c, [.unlockNamespaceInfoCache ns.name]) := by
  unfold syncNamespace
  rw [h1]
  simp [h2, h3, h4, h5, h6]

theorem lookup_processDeleteNamespaceEffect (c : Cache) (n : String) :
    getNamespaceInfoFromCache (processDeleteNamespaceEffect c n) n = none := by
  unfold processDeleteNamespaceEffect getNamespaceInfoFromCache
  induction c with
  | nil => rfl
  | cons hd tl ih =>
    by_cases hh : hd.1 = n
    · simp only [List.filter_cons, decide_eq_true hh, Bool.not_true,
        Bool.false_eq_true, if_false]
      exact ih
    · simp only [List.filter_cons, decide_eq_false hh, Bool.not_false, if_true]
      rw [List.find?]
      simp only [decide_eq_false hh, Bool.false_eq_true, if_false]
      exact ih

theorem syncNamespace_is_deleteBranch_aux (env : NsEnv) (ns : NsObj) (c : Cache)
    (hg : env.listerGet = .notFound ∨ (env.listerGet = .found ∧ ns.dtZero = false)) :
    syncNamespace env ns c = syncNamespaceDeleteBranch env ns c := by
  rcases hg with h | ⟨h, hdt⟩
  · unfold syncNamespace
    rw [h]
  · unfold syncNamespace
    rw [h]
    simp [hdt]

theorem syncNamespaceDeleteBranch_noentry_aux (env : NsEnv) (ns : NsObj) (c : Cache)
    (hl : getNamespaceInfoFromCache c ns.name = none) :
    syncNamespaceDeleteBranch env ns c
      = (.ok (), c, [.processDeleteNamespace ns.name]) := by
  unfold syncNamespaceDeleteBranch
  rw [hl]

theorem syncNamespace_delete_noentry_aux (env : NsEnv) (ns : NsObj) (c : Cache)
    (hg : env.listerGet = .notFound ∨ (env.listerGet = .found ∧ ns.dtZero = false))
    (hl : getNamespaceInfoFromCache c ns.name = none) :
    syncNamespace env ns c = (.ok (), c, [.processDeleteNamespace ns.name]) := by
  rw [syncNamespace_is_deleteBranch_aux env ns c hg]
  exact syncNamespaceDeleteBranch_noentry_aux env ns c hl

theorem syncNamespaceDeleteBranch_post_aux (env : NsEnv) (ns : NsObj) (c : Cache)
    (hok : (syncNamespaceDeleteBranch env ns c).1 = .ok ()) :
    getNamespaceInfoFromCache (syncNamespaceDeleteBranch env ns c).2.1 ns.name
      = none := by
  cases hl : getNamespaceInfoFromCache c ns.name with
  | none =>
    rw [syncNamespaceDeleteBranch_noentry_aux env ns c hl]
    exact hl
  | some info =>
    cases hd : env.deleteNsResult with
    | ok u =>
      have heq : syncNamespaceDeleteBranch env ns c
          = (.ok (), processDeleteNamespaceEffect c ns.name,
             [.processDeleteNamespace ns.name, .teardownNamespaceEntry ns.name]) := by
        unfold syncNamespaceDeleteBranch
        rw [hl]
        simp [hd]
      rw [heq]
      exact lookup_processDeleteNamespaceEffect c ns.name
    | error e =>
      have herr : (syncNamespaceDeleteBranch env ns c).1 = .error e := by
        unfold syncNamespaceDeleteBranch
        rw [hl]
        simp [hd]
      rw [herr] at hok
      exact Except.noConfusion hok

theorem syncNamespace_live_post_aux (env : NsEnv) (ns : NsObj) (c : Cache)
    (m : Finset String)
    (h1 : env.listerGet = .found) (h2 : ns.dtZero = true)
    (h3 : env.policiesForNs = .ok m)
    (hok : (syncNamespace env ns c).1 = .ok ()) :
    (getNamespaceInfoFromCache (syncNamespace env ns c).2.1 ns.name = none ∧ m = ∅) ∨
    (∃ info, getNamespaceInfoFromCache (syncNamespace env ns c).2.1 ns.name = some info ∧
      info.markForDelete = false ∧ info.policies = m) := by
  cases hl : getNamespaceInfoFromCache c ns.name with
  | none =>
    by_cases hm : m = ∅
    · have heq := syncNamespace_noentry_nomatch_aux env ns c m h1 h2 h3 hl hm
      rw [heq]
      exact Or.inl ⟨hl, hm⟩
    · cases ha : env.addNsResult with
      | ok u =>
        have heq : syncNamespace env ns c
            = (.ok (),
               setNs c ns.name
                 { policies := m, markForDelete := false,
                   staticGateways := env.resolvedStatic,
                   dynamicGateways := env.resolvedDynamic },
               [.newNamespaceInfoInCache ns.name, .processAddNamespace ns.name m,
                .unlockNamespaceInfoCache ns.name]) := by
          unfold syncNamespace
          rw [h1]
          simp [h2, h3, hl, hm, ha]
        rw [heq]
        exact Or.inr ⟨_, lookup_setNs_self c ns.name _, rfl, rfl⟩
      | error e =>
        have herr : (syncNamespace env ns c).1 = .error e := by
          unfold syncNamespace
          rw [h1]
          simp [h2, h3, hl, hm, ha]
        rw [herr] at hok
        exact Except.noConfusion hok
  | some info =>
    by_cases hd : info.markForDelete = true
    · have heq := syncNamespace_tombstone_aux env ns c info m h1 h2 h3 hl hd
      rw [heq] at hok
      exact Except.noConfusion hok
    · have hd' : info.markForDelete = false := by simpa using hd
      by_cases hpm : info.policies = m
      · have heq := syncNamespace_equal_noop_aux env ns c m info h1 h2 h3 hl hd' hpm
        rw [heq]
        exact Or.inr ⟨info, hl, hd', hpm⟩
      · cases hu : env.updateNsResult with
        | ok u =>
          have heq : syncNamespace env ns c
              = (.ok (),
                 setNs c ns.name
                   { info with policies := m,
                               staticGateways := env.resolvedStatic,
                               dynamicGateways := env.resolvedDynamic },
                 [.processUpdateNamespace ns.name info.policies m,
                  .unlockNamespaceInfoCache ns.name]) := by
            unfold syncNamespace
            rw [h1]
            simp [h2, h3, hl, hd', hpm, hu]
          rw [heq]
          exact Or.inr ⟨_, lookup_setNs_self c ns.name _, hd', rfl⟩
        | error e =>
          have herr : (syncNamespace env ns c).1 = .error e := by
            unfold syncNamespace
            rw [h1]
            simp [h2, h3, hl, hd', hpm, hu]
          rw [herr] at hok
          exact Except.noConfusion hok

theorem syncNamespace_ok_post_aux (env : NsEnv) (ns : NsObj) (c : Cache)
    (hok : (syncNamespace env ns c).1 = .ok ()) :
    ((env.listerGet = .notFound ∨ (env.listerGet = .found ∧ ns.dtZero = false)) ∧
      getNamespaceInfoFromCache (syncNamespace env ns c).2.1 ns.name = none) ∨
    (env.listerGet = .found ∧ ns.dtZero = true ∧
      ∃ m, env.policiesForNs = .ok m ∧
        ((getNamespaceInfoFromCache (syncNamespace env ns c).2.1 ns.name = none ∧
            m = ∅) ∨
         (∃ info,
            getNamespaceInfoFromCache (syncNamespace env ns c).2.1 ns.name
              = some info ∧
            info.markForDelete = false ∧ info.policies = m))) := by
  cases hg : env.listerGet with
  | otherErr msg =>
    have herr : (syncNamespace env ns c).1 = .error (.lister msg) := by
      unfold syncNamespace
      rw [hg]
    rw [herr] at hok
    exact Except.noConfusion hok
  | notFound =>
    have hcond : env.listerGet = .notFound ∨
        (env.listerGet = .found ∧ ns.dtZero = false) := Or.inl hg
    have heq := syncNamespace_is_deleteBranch_aux env ns c hcond
    rw [heq] at hok
    left
    refine ⟨Or.inl rfl, ?_⟩
    rw [heq]
    exact syncNamespaceDeleteBranch_post_aux env ns c hok
  | found =>
    cases hdt : ns.dtZero with
    | false =>
      have hcond : env.listerGet = .notFound ∨
          (env.listerGet = .found ∧ ns.dtZero = false) := Or.inr ⟨hg, hdt⟩
      have heq := syncNamespace_is_deleteBranch_aux env ns c hcond
      rw [heq] at hok
      left
      refine ⟨Or.inr ⟨rfl, rfl⟩, ?_⟩
      rw [heq]
      exact syncNamespaceDeleteBranch_post_aux env ns c hok
    | true =>
      cases hp : env.policiesForNs with
      | error e =>
        have herr : (syncNamespace env ns c).1 = .error e := by
          unfold syncNamespace
          rw [hg]
          simp [hdt, hp]
        rw [herr] at hok
        exact Except.noConfusion hok
      | ok m =>
        exact Or.inr ⟨rfl, rfl, m, rfl,
          syncNamespace_live_post_aux env ns c m hg hdt hp hok⟩

/-- Claim C5: re-running `syncNamespace` after a successful run, with no
intervening change (same listing, same policy-match computation, same
cache), returns nil, leaves the cache exactly as the first run left it, and
issues no mutating or applier-bound call — on the delete path as well as on
the live paths, since the teardown removes the entry and a repeat delete
has nothing to tear down; in particular a first run with no cache entry and
an empty match set, or with the cached policy set equal to the recomputed
one, is already a nil no-op that does not change the cache. -/
theorem c5_syncNamespace_idempotent (env : NsEnv) (ns : NsObj) (c0 : Cache)
    (hok : (syncNamespace env ns c0).1 = .ok ()) :
    ((syncNamespace env ns (syncNamespace env ns c0).2.1).1 = .ok () ∧
     (syncNamespace env ns (syncNamespace env ns c0).2.1).2.1
        = (syncNamespace env ns c0).2.1 ∧
     (∀ a ∈ (syncNamespace env ns (syncNamespace env ns c0).2.1).2.2,
        a.mutates = false ∧ a.callsApplier = false)) ∧
    (∀ m, env.listerGet = .found → ns.dtZero = true → env.policiesForNs = .ok m →
      getNamespaceInfoFromCache c0 ns.name = none → m = ∅ →
      syncNamespace env ns c0 = (.ok (), c0, [])) ∧
    (∀ m info, env.listerGet = .found → ns.dtZero = true →
      env.policiesForNs = .ok m →
      getNamespaceInfoFromCache c0 ns.name = some info →
      info.markForDelete = false → info.policies = m →
      syncNamespace env ns c0 = (.ok (), c0, [.unlockNamespaceInfoCache ns.name])) := by
  refine ⟨?_, ?_, ?_⟩
  · rcases syncNamespace_ok_post_aux env ns c0 hok with
      ⟨hg, hn⟩ | ⟨hf, hdt, m, hp, ⟨hn, hm⟩ | ⟨info, hi, hmd, hpm⟩⟩
    · have heq2 := syncNamespace_delete_noentry_aux env ns
        (syncNamespace env ns c0).2.1 hg hn
      rw [heq2]
      refine ⟨rfl, rfl, ?_⟩
      intro a ha
      simp only [List.mem_singleton] at ha
      subst ha
      exact ⟨rfl, rfl⟩
    · have heq2 := syncNamespace_noentry_nomatch_aux env ns
        (syncNamespace env ns c0).2.1 m hf hdt hp hn hm
      rw [heq2]
      exact ⟨rfl, rfl, by intro a ha; simp at ha⟩
    · have heq2 := syncNamespace_equal_noop_aux env ns
        (syncNamespace env ns c0).2.1 m info hf hdt hp hi hmd hpm
      rw [heq2]
      refine ⟨rfl, rfl, ?_⟩
      intro a ha
      simp only [List.mem_singleton] at ha
      subst ha
      exact ⟨rfl, rfl⟩
  · intro m hf hdt hp hn hm
    exact syncNamespace_noentry_nomatch_aux env ns c0 m hf hdt hp hn hm
  · intro m info hf hdt hp hi hmd hpm
    exact syncNamespace_equal_noop_aux env ns c0 m info hf hdt hp hi hmd hpm

/-- Closed witness for `c5_syncNamespace_idempotent`: a first add-path run
for `ns1` under policy set `{p1}`, whose second run is a no-op. -/
theorem c5_syncNamespace_idempotent_witness :
    (syncNamespace ⟨.found, .ok {"p1"}, .ok (), .ok (), .ok (), {"10.0.0.5"}, []⟩
        ⟨"ns1", true⟩ []).1 = .ok () ∧
    (syncNamespace ⟨.found, .ok {"p1"}, .ok (), .ok (), .ok (), {"10.0.0.5"}, []⟩
        ⟨"ns1", true⟩
        (syncNamespace ⟨.found, .ok {"p1"}, .ok (), .ok (), .ok (), {"10.0.0.5"}, []⟩
          ⟨"ns1", true⟩ []).2.1).1 = .ok () := by
  have hok : (syncNamespace ⟨.found, .ok {"p1"}, .ok (), .ok (), .ok (), {"10.0.0.5"}, []⟩
      ⟨"ns1", true⟩ []).1 = .ok () := by rfl
  exact ⟨hok,
    (c5_syncNamespace_idempotent
      ⟨.found, .ok {"p1"}, .ok (), .ok (), .ok (), {"10.0.0.5"}, []⟩
      ⟨"ns1", true⟩ [] hok).1.1⟩

end ApbRoute
